import Mathlib

/-!
Shallow embedding of `scripts/generate_recipes.py`, the recipe-table
compiler of the factory-game repository.  The Python script turns two
authored recipe dictionaries (a furnace/smelting set and a general set)
into a generated Rust source artifact holding two recipe tables and a
positional slot-layout function.  The textual Rust syntax is peripheral;
the embedding captures the structured content each emitted fragment
denotes: a recipe record for `rust_recipe`, a time expression over the
`TICKS_PER_SECOND` constant for `rust_time_expr`, a named table for
`generate_recipes` / `generate_furnace_recipes`, and an indexed list of
match arms (with the `_ => unreachable!()` default modelled as `none` in
the lookup semantics) for `generate_slot_match`.
-/

namespace RecipeGen

/-- Python's built-in `round`: nearest integer, ties to even
(the rounding used by `rust_time_expr`). -/
def pyRound (q : ℚ) : ℤ :=
  let f : ℤ := ⌊q⌋
  let r : ℚ := q - f
  if r < 1 / 2 then f
  else if 1 / 2 < r then f + 1
  else if f % 2 = 0 then f else f + 1

/-- The closed-form tick-count expressions `rust_time_expr` can emit:
`TICKS_PER_SECOND`, `TICKS_PER_SECOND / d`, or `TICKS_PER_SECOND * m`. -/
inductive TimeExpr
  | tps : TimeExpr
  | tpsDiv (d : ℤ) : TimeExpr
  | tpsMul (m : ℤ) : TimeExpr
  deriving DecidableEq, Repr

/-- `rust_time_expr(time)` from the source: `time == 1` emits the bare
constant; `time < 1` emits the constant divided by `round(1 / time)`;
otherwise the constant multiplied by `round(time)`. -/
def rust_time_expr (time : ℚ) : TimeExpr :=
  if time = 1 then TimeExpr.tps
  else if time < 1 then TimeExpr.tpsDiv (pyRound (1 / time))
  else TimeExpr.tpsMul (pyRound time)

/-- An authored recipe definition: the value of one entry of the
`furnace_recipes` / `recipes` dictionaries. -/
structure RecipeData where
  requirements : List (String × ℤ)
  amount : ℤ
  time : ℚ
  deriving DecidableEq, Repr

/-- `rust_item(kind, amount)` denotes an `Item::new(ItemKind::kind, amount)`
expression: a (kind, amount) pair. -/
def rust_item (kind : String) (amount : ℤ) : String × ℤ :=
  (kind, amount)

/-- The structured content of one emitted `Recipe { .. }` literal. -/
structure RecipeRecord where
  requirements : List (String × ℤ)
  result : String × ℤ
  time : TimeExpr
  deriving DecidableEq, Repr

/-- `rust_recipe(name, data)` from the source: formats every requirement
through `rust_item`, the result through `rust_item(name, amount)`, and the
time through `rust_time_expr`.  No validation is performed. -/
def rust_recipe (name : String) (data : RecipeData) : RecipeRecord :=
  { requirements := data.requirements.map (fun r => rust_item r.1 r.2)
    result := rust_item name data.amount
    time := rust_time_expr data.time }

/-- The structured content of one emitted `pub const NAME : &[Recipe]`
declaration: the constant's name and its ordered records. -/
structure TableDecl where
  constName : String
  entries : List RecipeRecord
  deriving DecidableEq, Repr

/-- `generate_recipes(recipes)` from the source: the `RECIPES` table, one
`rust_recipe` record per dictionary entry in insertion order. -/
def generate_recipes (recipes : List (String × RecipeData)) : TableDecl :=
  { constName := "RECIPES"
    entries := recipes.map (fun p => rust_recipe p.1 p.2) }

/-- `generate_furnace_recipes(recipes)` from the source: identical to
`generate_recipes` except the constant is named `FURNACE_RECIPES`. -/
def generate_furnace_recipes (recipes : List (String × RecipeData)) : TableDecl :=
  { constName := "FURNACE_RECIPES"
    entries := recipes.map (fun p => rust_recipe p.1 p.2) }

/-- The kind of an emitted `SlotMeta`: an input slot filtered to one item
kind, or the (unfiltered) output slot. -/
inductive SlotKind
  | input (filter : String) : SlotKind
  | output : SlotKind
  deriving DecidableEq, Repr

/-- The structured content of one emitted `SlotMeta::new(capacity, kind)`. -/
structure SlotMeta where
  capacity : ℤ
  kind : SlotKind
  deriving DecidableEq, Repr

/-- `generate_slot_meta(index, data)` from the source: one match arm,
labelled `index`, whose slot list has one input slot of capacity
`2 * amount` filtered to the requirement's kind per requirement (in
authored order), followed by one output slot of capacity `amount * 2`. -/
def generate_slot_meta (index : ℕ) (data : RecipeData) : ℕ × List SlotMeta :=
  (index,
    data.requirements.map
        (fun req => SlotMeta.mk (2 * req.2) (SlotKind.input req.1))
      ++ [SlotMeta.mk (data.amount * 2) SlotKind.output])

/-- The structured content of the emitted
`pub fn crafting_recipe_inventory(index: usize)` declaration: its ordered
match arms.  The trailing `_ => unreachable!()` arm is implicit: it is the
`none` case of `slotLookup`. -/
structure SlotMatchDecl where
  arms : List (ℕ × List SlotMeta)
  deriving DecidableEq, Repr

/-- `generate_slot_match(recipes)` from the source: one arm per dictionary
entry, labelled by its enumeration index, slots from `generate_slot_meta`. -/
def generate_slot_match (recipes : List (String × RecipeData)) : SlotMatchDecl :=
  { arms := recipes.enum.map (fun p => generate_slot_meta p.1 p.2.2) }

/-- Rust `match` semantics of the emitted lookup function: the first arm
whose label equals `i` yields its slots; falling through every arm reaches
the `_ => unreachable!()` branch, modelled as `none`. -/
def matchEval : List (ℕ × List SlotMeta) → ℕ → Option (List SlotMeta)
  | [], _ => none
  | a :: rest, i => if a.1 = i then some a.2 else matchEval rest i

/-- Evaluate the emitted slot-layout function at index `i`. -/
def slotLookup (m : SlotMatchDecl) (i : ℕ) : Option (List SlotMeta) :=
  matchEval m.arms i

/-- Value of the emitted time expression given the ticks-per-second
constant `T`, read as exact rational arithmetic. -/
def evalTimeQ (e : TimeExpr) (T : ℚ) : ℚ :=
  match e with
  | TimeExpr.tps => T
  | TimeExpr.tpsDiv d => T / d
  | TimeExpr.tpsMul m => T * m

/-- The duration-to-constant ratio an emitted time expression denotes. -/
def timeRatio (e : TimeExpr) : ℚ :=
  match e with
  | TimeExpr.tps => 1
  | TimeExpr.tpsDiv d => 1 / d
  | TimeExpr.tpsMul m => m

/-- The authored `furnace_recipes` dictionary, in insertion order. -/
def furnace_recipes : List (String × RecipeData) :=
  [("IronPlate", ⟨[("IronOre", 1)], 1, 1⟩),
   ("CopperPlate", ⟨[("CopperOre", 1)], 1, 1⟩),
   ("SteelPlate", ⟨[("IronPlate", 5)], 1, 5⟩)]

/-- The authored `recipes` dictionary, in insertion order. -/
def recipes : List (String × RecipeData) :=
  [("Brick", ⟨[("Voxel(Voxel::Stone)", 2)], 1, 1 / 2⟩),
   ("IronGearWheel", ⟨[("IronPlate", 2)], 1, 1 / 2⟩),
   ("IronRod", ⟨[("IronPlate", 1)], 2, 1 / 2⟩),
   ("CopperWire", ⟨[("CopperPlate", 1)], 3, 1 / 2⟩),
   ("MechanicalComponent", ⟨[("IronRod", 2), ("IronGearWheel", 1)], 1, 1⟩),
   ("ElectronicsKit", ⟨[("CopperWire", 3), ("CopperPlate", 1)], 1, 1⟩),
   ("CircuitBoard", ⟨[("ElectronicsKit", 2), ("IronPlate", 4)], 1, 1⟩),
   ("Structure(StructureKind::Belt)",
     ⟨[("IronGearWheel", 1), ("Voxel(Voxel::Stone)", 4)], 3, 2⟩),
   ("Structure(StructureKind::Splitter)",
     ⟨[("Structure(StructureKind::Belt)", 4), ("ElectronicsKit", 1)], 1, 2⟩),
   ("Structure(StructureKind::Chest)",
     ⟨[("IronGearWheel", 2), ("Voxel(Voxel::Stone)", 16)], 1, 2⟩),
   ("Structure(StructureKind::Silo)",
     ⟨[("Structure(StructureKind::Chest)", 4), ("Voxel(Voxel::Stone)", 64)], 1, 2⟩),
   ("Structure(StructureKind::Inserter)",
     ⟨[("MechanicalComponent", 1), ("ElectronicsKit", 1)], 1, 2⟩),
   ("Structure(StructureKind::Furnace)",
     ⟨[("Voxel(Voxel::Stone)", 16), ("Coal", 4)], 1, 2⟩),
   ("Structure(StructureKind::SteelFurnace)",
     ⟨[("SteelPlate", 8), ("Brick", 32)], 1, 12⟩),
   ("Structure(StructureKind::Quarry)",
     ⟨[("MechanicalComponent", 4), ("Voxel(Voxel::Stone)", 12)], 1, 2⟩),
   ("Structure(StructureKind::Assembler)",
     ⟨[("MechanicalComponent", 3), ("ElectronicsKit", 2)], 1, 2⟩),
   ("Radar", ⟨[("SteelPlate", 30), ("CircuitBoard", 20), ("Brick", 50)], 1, 1 / 10⟩)]

/-- The three declarations of the generated artifact. -/
structure Artifact where
  furnaceTable : TableDecl
  generalTable : TableDecl
  slotMatch : SlotMatchDecl
  deriving DecidableEq, Repr

/-- Module-level emission of the source: furnace table from the smelting
set, then the general table and the slot-layout function from the general
set. -/
def artifact : Artifact :=
  { furnaceTable := generate_furnace_recipes furnace_recipes
    generalTable := generate_recipes recipes
    slotMatch := generate_slot_match recipes }

/-- Evaluation: a one-second duration emits the bare constant. -/
lemma rte_one : rust_time_expr 1 = TimeExpr.tps := by
  norm_num [rust_time_expr]

/-- Evaluation: a half-second duration emits the constant over two. -/
lemma rte_half : rust_time_expr (1 / 2) = TimeExpr.tpsDiv 2 := by
  norm_num [rust_time_expr, pyRound]

/-- Evaluation: a two-second duration emits the constant times two. -/
lemma rte_two : rust_time_expr 2 = TimeExpr.tpsMul 2 := by
  norm_num [rust_time_expr, pyRound]

/-- Evaluation: a five-second duration emits the constant times five. -/
lemma rte_five : rust_time_expr 5 = TimeExpr.tpsMul 5 := by
  norm_num [rust_time_expr, pyRound]

/-- Evaluation: a twelve-second duration emits the constant times twelve. -/
lemma rte_twelve : rust_time_expr 12 = TimeExpr.tpsMul 12 := by
  norm_num [rust_time_expr, pyRound]

/-- Evaluation: a tenth-of-a-second duration emits the constant over ten. -/
lemma rte_tenth : rust_time_expr (1 / 10) = TimeExpr.tpsDiv 10 := by
  norm_num [rust_time_expr, pyRound]

/-- C1: for every positive duration `d`, `rust_time_expr` returns the
ticks-per-second constant unmodified when `d = 1`; the constant divided by
`round(1/d)` when `d < 1`; and the constant multiplied by `round(d)` when
`d > 1` (in that precedence order); in particular `d = 0.5` yields `T/2`,
`d = 5` yields `T*5`, and `d = 0.1` yields `T/10`. -/
theorem rust_time_expr_spec (d : ℚ) (_hd : 0 < d) :
    (d = 1 → rust_time_expr d = TimeExpr.tps) ∧
    (d < 1 → rust_time_expr d = TimeExpr.tpsDiv (pyRound (1 / d))) ∧
    (1 < d → rust_time_expr d = TimeExpr.tpsMul (pyRound d)) ∧
    rust_time_expr (1 / 2) = TimeExpr.tpsDiv 2 ∧
    rust_time_expr 5 = TimeExpr.tpsMul 5 ∧
    rust_time_expr (1 / 10) = TimeExpr.tpsDiv 10 := by
  refine ⟨?_, ?_, ?_, rte_half, rte_five, rte_tenth⟩
  · intro h
    rw [rust_time_expr, if_pos h]
  · intro h
    rw [rust_time_expr, if_neg (ne_of_lt h), if_pos h]
  · intro h
    rw [rust_time_expr, if_neg (ne_of_gt h), if_neg (not_lt.mpr h.le)]

/-- Witness for C1 at the concrete duration one half. -/
theorem rust_time_expr_spec_witness :
    rust_time_expr (1 / 2) = TimeExpr.tpsDiv (pyRound (1 / (1 / 2 : ℚ))) :=
  (rust_time_expr_spec (1 / 2) (by norm_num)).2.1 (by norm_num)

/-- Counterexample to C2: a definition whose name and ingredient name are
not known kinds and whose quantities are non-positive is still turned into
a `RecipeRecord` — the normalizer never fails, it validates nothing. -/
theorem rust_recipe_no_abort :
    rust_recipe "NotAKind" ⟨[("AlsoNotAKind", 0)], -3, 2⟩ =
      ⟨[("AlsoNotAKind", 0)], ("NotAKind", -3), TimeExpr.tpsMul 2⟩ := by
  simp [rust_recipe, rust_item, rte_two]

/-- C2 (amended): the normalizer performs no validation; table generation
emits one record per definition, unknown kinds and non-positive quantities
included, and never aborts. -/
theorem generate_recipes_no_validation (rs : List (String × RecipeData)) :
    (generate_recipes rs).entries.length = rs.length ∧
    ∀ p ∈ rs, rust_recipe p.1 p.2 ∈ (generate_recipes rs).entries := by
  constructor
  · simp [generate_recipes]
  · intro p hp
    simp only [generate_recipes, List.mem_map]
    exact ⟨p, hp, rfl⟩

/-- Witness for the amended C2: the invalid definition of the
counterexample reaches the emitted table. -/
theorem generate_recipes_no_validation_witness :
    rust_recipe "NotAKind" ⟨[("AlsoNotAKind", 0)], -3, 2⟩ ∈
      (generate_recipes [("NotAKind", ⟨[("AlsoNotAKind", 0)], -3, 2⟩)]).entries :=
  (generate_recipes_no_validation
      [("NotAKind", ⟨[("AlsoNotAKind", 0)], -3, 2⟩)]).2
    ("NotAKind", ⟨[("AlsoNotAKind", 0)], -3, 2⟩) (by simp)

/-- C8: for every definition, the normalizer's record has exactly as many
ingredient entries as the definition has requirements, in the same order
with the same (kind, quantity) pairs. -/
theorem rust_recipe_preserves_requirements (name : String) (data : RecipeData) :
    (rust_recipe name data).requirements = data.requirements ∧
    (rust_recipe name data).requirements.length = data.requirements.length := by
  constructor <;> simp [rust_recipe, rust_item]

/-- C10: the furnace-table emitter and the general-table emitter produce
identical entry lists on every input, differing only in the emitted
constant's name. -/
theorem furnace_general_equiv (rs : List (String × RecipeData)) :
    (generate_furnace_recipes rs).entries = (generate_recipes rs).entries ∧
    (generate_furnace_recipes rs).constName = "FURNACE_RECIPES" ∧
    (generate_recipes rs).constName = "RECIPES" :=
  ⟨rfl, rfl, rfl⟩

/-- C3: in every arm of the slot layout, the input slot for the ingredient
at position `j` has capacity twice that ingredient's authored quantity and
a filter admitting only that ingredient's kind, and the output slot (the
entry after all inputs) has capacity twice the authored output quantity. -/
theorem slot_capacities (index : ℕ) (data : RecipeData) (j : ℕ)
    (hj : j < data.requirements.length) :
    (generate_slot_meta index data).2.get? j =
      some ⟨2 * (data.requirements.get ⟨j, hj⟩).2,
            SlotKind.input (data.requirements.get ⟨j, hj⟩).1⟩ ∧
    (generate_slot_meta index data).2.get? data.requirements.length =
      some ⟨2 * data.amount, SlotKind.output⟩ := by
  constructor
  · simp only [generate_slot_meta]
    rw [List.get?_append (by simpa using hj), List.get?_map,
      List.get?_eq_get hj]
    rfl
  · simp only [generate_slot_meta]
    rw [show data.requirements.length =
          (data.requirements.map
            (fun req => SlotMeta.mk (2 * req.2) (SlotKind.input req.1))).length
        from (List.length_map _ _).symm,
      List.get?_concat_length]
    rw [Int.mul_comm]

/-- Witness for C3 at the first ingredient of a concrete definition. -/
theorem slot_capacities_witness :
    (generate_slot_meta 0 ⟨[("IronPlate", 2)], 1, 1 / 2⟩).2.get? 0 =
      some ⟨4, SlotKind.input "IronPlate"⟩ := by
  have h := (slot_capacities 0 ⟨[("IronPlate", 2)], 1, 1 / 2⟩ 0 (by simp)).1
  simpa using h

/-- C4: every emitted slot sequence is one input slot per ingredient, in
ingredient order, followed by exactly one output slot as the final
element; its length is the requirement count plus one and the output slot
is the unique non-input slot. -/
theorem slot_sequence_shape (index : ℕ) (data : RecipeData) :
    (generate_slot_meta index data).2.length = data.requirements.length + 1 ∧
    (∀ j, ∀ hj : j < data.requirements.length,
      (generate_slot_meta index data).2.get? j =
        some ⟨2 * (data.requirements.get ⟨j, hj⟩).2,
              SlotKind.input (data.requirements.get ⟨j, hj⟩).1⟩) ∧
    (generate_slot_meta index data).2.getLast? =
      some ⟨2 * data.amount, SlotKind.output⟩ ∧
    (∀ j s, (generate_slot_meta index data).2.get? j = some s →
      s.kind = SlotKind.output → j = data.requirements.length) := by
  refine ⟨?_, ?_, ?_, ?_⟩
  · simp [generate_slot_meta]
  · intro j hj
    exact (slot_capacities index data j hj).1
  · simp only [generate_slot_meta]
    rw [List.getLast?_concat, Int.mul_comm]
  · intro j s hs hout
    rcases lt_trichotomy j data.requirements.length with h | h | h
    · rw [(slot_capacities index data j h).1] at hs
      cases hs
      cases hout
    · exact h
    · rw [List.get?_eq_none.mpr (by simp [generate_slot_meta]; omega)] at hs
      cases hs

/-- Witness for C4 at a concrete one-ingredient definition. -/
theorem slot_sequence_shape_witness :
    (generate_slot_meta 0 ⟨[("IronPlate", 2)], 1, 1 / 2⟩).2.get? 0 =
      some ⟨2 * ((⟨[("IronPlate", 2)], 1, 1 / 2⟩ :
          RecipeData).requirements.get ⟨0, by simp⟩).2,
        SlotKind.input ((⟨[("IronPlate", 2)], 1, 1 / 2⟩ :
          RecipeData).requirements.get ⟨0, by simp⟩).1⟩ :=
  (slot_sequence_shape 0 ⟨[("IronPlate", 2)], 1, 1 / 2⟩).2.1 0 (by simp)

/-- Evaluating the emitted match over the arms built from an enumeration
starting at `k`: index `i` hits the arm of the list element at position
`i - k` when `k ≤ i` and falls through to the default branch otherwise. -/
lemma matchEval_enumFrom (l : List (String × RecipeData)) (k i : ℕ) :
    matchEval ((List.enumFrom k l).map (fun p => generate_slot_meta p.1 p.2.2)) i =
      if k ≤ i then (l.get? (i - k)).map (fun p => (generate_slot_meta i p.2).2)
      else none := by
  induction l generalizing k with
  | nil => simp [matchEval]
  | cons hd tl ih =>
    rw [List.enumFrom_cons, List.map_cons]
    simp only [matchEval]
    by_cases hk : k = i
    · subst hk
      have hfst : (generate_slot_meta k hd.2).1 = k := rfl
      rw [if_pos hfst, if_pos (Nat.le_refl k), Nat.sub_self]
      rfl
    · rw [if_neg (by simpa [generate_slot_meta] using hk), ih (k + 1)]
      by_cases hki : k ≤ i
      · have h1 : k + 1 ≤ i := by omega
        rw [if_pos h1, if_pos hki,
          show i - k = (i - (k + 1)) + 1 from by omega, List.get?_cons_succ]
      · rw [if_neg (by omega), if_neg hki]

/-- The emitted slot-layout function, evaluated at `i`, returns the slots
of the `i`-th authored general recipe (and `none` past the end). -/
lemma slotLookup_generate (rs : List (String × RecipeData)) (i : ℕ) :
    slotLookup (generate_slot_match rs) i =
      (rs.get? i).map (fun p => (generate_slot_meta i p.2).2) := by
  have h := matchEval_enumFrom rs 0 i
  rw [if_pos (Nat.zero_le i), Nat.sub_zero] at h
  exact h

/-- C5: for `N` compiled general recipes the emitted slot-layout function
returns a slot sequence for every index below `N` and reaches the
designated unreachable branch (modelled as `none`) for every index at or
above `N`. -/
theorem slot_match_exhaustive (rs : List (String × RecipeData)) (i : ℕ) :
    (i < rs.length →
      ∃ slots, slotLookup (generate_slot_match rs) i = some slots) ∧
    (rs.length ≤ i → slotLookup (generate_slot_match rs) i = none) := by
  rw [slotLookup_generate]
  constructor
  · intro h
    rw [List.get?_eq_get h]
    exact ⟨_, rfl⟩
  · intro h
    rw [List.get?_eq_none.mpr h]
    rfl

/-- Witness for C5 at the authored general set and index zero. -/
theorem slot_match_exhaustive_witness :
    ∃ slots, slotLookup (generate_slot_match recipes) 0 = some slots :=
  (slot_match_exhaustive recipes 0).1 (by norm_num [recipes])

/-- C6: the slot layout emitted for index `i` is derived from exactly the
`i`-th recipe in authoring order, the recipe table is emitted in exactly
that order, and reordering the authored set (here: reversing it) changes
which slot layout corresponds to which ordinal index. -/
theorem slot_match_positional (rs : List (String × RecipeData)) (i : ℕ)
    (hi : i < rs.length) :
    slotLookup (generate_slot_match rs) i =
      some ((generate_slot_meta i (rs.get ⟨i, hi⟩).2).2) ∧
    (generate_recipes rs).entries.get? i =
      some (rust_recipe (rs.get ⟨i, hi⟩).1 (rs.get ⟨i, hi⟩).2) ∧
    slotLookup (generate_slot_match recipes) 0 ≠
      slotLookup (generate_slot_match recipes.reverse) 0 := by
  refine ⟨?_, ?_, ?_⟩
  · rw [slotLookup_generate, List.get?_eq_get hi]
    rfl
  · simp only [generate_recipes]
    rw [List.get?_map, List.get?_eq_get hi]
    rfl
  · rw [slotLookup_generate, slotLookup_generate]
    simp [recipes, generate_slot_meta]

/-- Witness for C6: the reorder-sensitivity conjunct, obtained by applying
the theorem at the authored general set and index zero. -/
theorem slot_match_positional_witness :
    slotLookup (generate_slot_match recipes) 0 ≠
      slotLookup (generate_slot_match recipes.reverse) 0 :=
  (slot_match_positional recipes 0 (by norm_num [recipes])).2.2

/-- Dividing the value of an emitted time expression by a nonzero constant
`T` yields the duration-to-constant ratio the expression denotes. -/
lemma evalTimeQ_div (e : TimeExpr) (T : ℚ) (hT : T ≠ 0) :
    evalTimeQ e T / T = timeRatio e := by
  cases e with
  | tps => simp [evalTimeQ, timeRatio, div_self hT]
  | tpsDiv d =>
    simp only [evalTimeQ, timeRatio]
    rw [div_div, mul_comm, ← div_div, div_self hT]
  | tpsMul m =>
    simp only [evalTimeQ, timeRatio]
    rw [mul_comm, mul_div_assoc, div_self hT, mul_one]

/-- Every authored recipe of either set round-trips exactly: the ratio its
emitted time expression denotes equals the authored duration. -/
lemma roundtrip_all :
    ∀ p ∈ furnace_recipes ++ recipes,
      |timeRatio (rust_time_expr p.2.time) - p.2.time| ≤ 1 / 1000000 := by
  intro p hp
  fin_cases hp <;>
    norm_num [timeRatio, rte_one, rte_half, rte_two, rte_five, rte_twelve,
      rte_tenth]

/-- C7: for every recipe entry in both the furnace set and the general
set, evaluating the emitted time expression at any nonzero
ticks-per-second constant `T` and dividing by `T` recovers the authored
duration within tolerance `1e-6`; and the 0.1-second quantization yields
divisor 10 (as in the Radar recipe). -/
theorem time_round_trip (p : String × RecipeData)
    (hp : p ∈ furnace_recipes ++ recipes) (T : ℚ) (hT : T ≠ 0) :
    |evalTimeQ (rust_time_expr p.2.time) T / T - p.2.time| ≤ 1 / 1000000 ∧
    rust_time_expr (1 / 10) = TimeExpr.tpsDiv 10 := by
  refine ⟨?_, rte_tenth⟩
  rw [evalTimeQ_div _ _ hT]
  exact roundtrip_all p hp

/-- Witness for C7 at the Radar recipe and `T = 60`. -/
theorem time_round_trip_witness :
    |evalTimeQ
        (rust_time_expr
          ((("Radar",
              ⟨[("SteelPlate", 30), ("CircuitBoard", 20), ("Brick", 50)],
                1, 1 / 10⟩) : String × RecipeData)).2.time)
        60 / 60 -
      ((("Radar",
          ⟨[("SteelPlate", 30), ("CircuitBoard", 20), ("Brick", 50)],
            1, 1 / 10⟩) : String × RecipeData)).2.time| ≤ 1 / 1000000 :=
  (time_round_trip
    ("Radar",
      ⟨[("SteelPlate", 30), ("CircuitBoard", 20), ("Brick", 50)], 1, 1 / 10⟩)
    (by simp [furnace_recipes, recipes]) 60 (by norm_num)).1

/-- C9: the artifact's three declarations have distinct input scopes: the
furnace table is exactly the smelting set's records under the name
`FURNACE_RECIPES` and feeds no slot layout; the general table (named
`RECIPES`) and the entire slot-layout function are derived only from the
general set, the latter with one arm per general recipe (17, not 20) and
the unreachable branch everywhere past them. -/
theorem artifact_scopes :
    (∀ i, recipes.length ≤ i → slotLookup artifact.slotMatch i = none) ∧
    (∀ i, slotLookup artifact.slotMatch i =
      (recipes.get? i).map (fun p => (generate_slot_meta i p.2).2)) ∧
    artifact.furnaceTable.constName = "FURNACE_RECIPES" ∧
    artifact.furnaceTable.entries =
      furnace_recipes.map (fun p => rust_recipe p.1 p.2) ∧
    artifact.generalTable.constName = "RECIPES" ∧
    artifact.generalTable.entries = recipes.map (fun p => rust_recipe p.1 p.2) ∧
    artifact.slotMatch.arms.length = recipes.length ∧
    furnace_recipes.length = 3 ∧ recipes.length = 17 := by
  refine ⟨?_, ?_, rfl, rfl, rfl, rfl, ?_, ?_, ?_⟩
  · intro i hi
    rw [show artifact.slotMatch = generate_slot_match recipes from rfl,
      slotLookup_generate, List.get?_eq_none.mpr hi]
    rfl
  · intro i
    exact slotLookup_generate recipes i
  · simp [artifact, generate_slot_match, List.enum_length]
  · norm_num [furnace_recipes]
  · norm_num [recipes]

/-- Witness for C9: the slot-layout function reaches the unreachable
branch at index 17, one past the last general recipe. -/
theorem artifact_scopes_witness :
    slotLookup artifact.slotMatch 17 = none :=
  artifact_scopes.1 17 (by norm_num [recipes])

end RecipeGen
